import Mathlib

/-!
# dual-ip: client-IP resolution and server-IP lookup

A shallow embedding of `main.go`.  Go strings are byte sequences; they are
modelled as lists of byte values.  The outcomes of the outbound HTTP call, of
reading the body and of JSON decoding, and the time each operation takes, are
inputs of the model (`Env`); the process-wide cache, the wall clock and the log
are explicit state (`World`).  A response body is the value handed to the
response writer or to the JSON encoder, not its serialisation.  Concurrent
requests to the server-ip endpoint are goroutines that take atomic steps in the
order given by a schedule (`Conc`, `step`, `exec`).
-/

namespace DualIP

/-- A Go string: an immutable sequence of bytes. -/
abbrev GoString := List Nat

/-- The bytes of an ASCII literal. -/
def ascii (s : String) : GoString := s.toList.map Char.toNat

/-- The byte of the separator searched for by handleClientIP. -/
def colon : GoString := ascii ":"

/-! ## Library functions used by the handlers -/

/-- Search loop of strings.Index: the index (counted from offset i) of the first
position of s at which substr starts, or -1. -/
def indexFrom (substr : GoString) : GoString → Nat → Int
  | [], i => if substr.isEmpty then (i : Int) else -1
  | c :: rest, i =>
    if substr.isPrefixOf (c :: rest) then (i : Int) else indexFrom substr rest (i + 1)

/-- Go strings.Index(s, substr): index of the first instance of substr in s, or -1. -/
def Index (s substr : GoString) : Int := indexFrom substr s 0

/-- Go slice expression s[:idx]; none is the run-time panic for an index out of range. -/
def sliceTo (s : GoString) (idx : Int) : Option GoString :=
  if 0 ≤ idx ∧ idx ≤ (s.length : Int) then some (s.take idx.toNat) else none

/-- Go http.Header seen through Get: the values stored under the canonical form
of a key (no values when the key is absent). -/
abbrev Header := GoString → List GoString

/-- Go Header.Get: the first value associated with the key, or the empty string. -/
def Header.Get (h : Header) (key : GoString) : GoString :=
  match h key with
  | [] => []
  | v :: _ => v

/-- The part of http.Request that the handlers read. -/
structure Request where
  Header : Header
  RemoteAddr : GoString

/-- What a handler passes to the response writer as body. -/
inductive Body where
  /-- Raw bytes written to the response. -/
  | raw (bytes : GoString)
  /-- Encoding by json.Encoder of a map from string to string, as its entries. -/
  | jsonMap (entries : List (GoString × GoString))
  /-- Encoding by json.Encoder of a record with fields ip, city, country, last_updated. -/
  | jsonRecord (ip city country : GoString) (lastUpdated : Nat)
  deriving DecidableEq

/-- An HTTP response: status code, Content-Type header, body. -/
structure Response where
  status : Nat
  contentType : GoString
  body : Body
  deriving DecidableEq

/-- Go http.Error: plain-text reply with the given code, the message followed by a newline. -/
def httpError (msg : GoString) (code : Nat) : Response :=
  { status := code, contentType := ascii "text/plain; charset=utf-8",
    body := Body.raw (msg ++ ascii "\n") }

/-! ## handleClientIP -/

/-- The value chosen by lines 98-104 of handleClientIP, before truncation. -/
def selectClientIP (r : Request) : GoString :=
  let clientIP := r.Header.Get (ascii "X-Forwarded-For")
  let clientIP := if clientIP = [] then r.Header.Get (ascii "X-Real-IP") else clientIP
  let clientIP := if clientIP = [] then r.RemoteAddr else clientIP
  clientIP

/-- Lines 106-108 of handleClientIP: cut at the first colon, if there is one. -/
def truncateAtColon (clientIP : GoString) : Option GoString :=
  let idx := Index clientIP colon
  if idx ≠ -1 then sliceTo clientIP idx else some clientIP

/-- The value of clientIP when handleClientIP encodes it (none: a run-time panic). -/
def resolveClientIP (r : Request) : Option GoString :=
  truncateAtColon (selectClientIP r)

/-- Go handleClientIP: the response written (none: a run-time panic). -/
def handleClientIP (r : Request) : Option Response :=
  match resolveClientIP r with
  | none => none
  | some clientIP =>
    some { status := 200, contentType := ascii "application/json",
           body := Body.jsonMap [(ascii "ip", clientIP)] }

/-- A request with the given X-Forwarded-For and X-Real-IP header values (an
empty string stands for an absent header) and remote address. -/
def mkRequest (xff xri remote : GoString) : Request :=
  { Header := fun k =>
      if k = ascii "X-Forwarded-For" then (if xff = [] then [] else [xff])
      else if k = ascii "X-Real-IP" then (if xri = [] then [] else [xri])
      else [],
    RemoteAddr := remote }

/-- The response of handleClientIP that reports the value ip. -/
def ipResponse (ip : GoString) : Response :=
  { status := 200, contentType := ascii "application/json",
    body := Body.jsonMap [(ascii "ip", ip)] }

/-- Value of the X-Forwarded-For header as handleClientIP reads it. -/
def forwardedFor (r : Request) : GoString := r.Header.Get (ascii "X-Forwarded-For")

/-- Value of the X-Real-IP header as handleClientIP reads it. -/
def realIP (r : Request) : GoString := r.Header.Get (ascii "X-Real-IP")

/-- The first non-empty string of a list of sources, if there is one. -/
def firstNonEmpty : List GoString → Option GoString
  | [] => none
  | s :: rest => if s = [] then firstNonEmpty rest else some s

/-! ## fetchIPInfo and handleServerIP -/

/-- Go struct IPInfo without its lock.  The field mu only orders the accesses of
concurrent handlers: where a handler runs alone (handleServerIP below) Lock and
Unlock succeed at once and change nothing that is observed; where handlers run
concurrently the lock is the field mu of Conc. -/
structure IPInfo where
  IP : GoString
  City : GoString
  Country : GoString
  LastUpdated : Nat
  deriving DecidableEq

/-- The zero value of IPInfo, the initial content of serverIPInfo. -/
def IPInfo.zero : IPInfo := { IP := [], City := [], Country := [], LastUpdated := 0 }

/-- Go struct IPAPIResponse. -/
structure IPAPIResponse where
  Query : GoString
  City : GoString
  Country : GoString
  Status : GoString
  deriving DecidableEq

/-- What the outside world does during one call of fetchIPInfo: the error of
http.Get (none when the request succeeds), the outcome of io.ReadAll on the body,
the decoder json.Unmarshal applied to a zero IPAPIResponse, and the time that
elapses during each of these operations and during the log call. -/
structure Env where
  httpGet : Option GoString
  readAll : Except GoString GoString
  jsonUnmarshal : GoString → Except GoString IPAPIResponse
  getDur : Nat
  readDur : Nat
  parseDur : Nat
  logDur : Nat

/-- Process state: the wall clock, the lines written by the log package and the
process-wide variable serverIPInfo. -/
structure World where
  clock : Nat
  logs : List GoString
  serverIPInfo : IPInfo

/-- The pair returned by fetchIPInfo: a pointer to a record (none is nil) and an
error (none is nil). -/
structure FetchResult where
  info : Option IPInfo
  err : Option GoString
  deriving DecidableEq

/-- Let d units of time pass. -/
def World.elapse (w : World) (d : Nat) : World := { w with clock := w.clock + d }

/-- Go fetchIPInfo. -/
def fetchIPInfo (env : Env) (w : World) : FetchResult × World :=
  let w := w.elapse env.getDur
  match env.httpGet with
  | some err => ({ info := none, err := some (ascii "failed to fetch IP: " ++ err) }, w)
  | none =>
    let w := w.elapse env.readDur
    match env.readAll with
    | .error err => ({ info := none, err := some (ascii "failed to read response: " ++ err) }, w)
    | .ok body =>
      let w := w.elapse env.parseDur
      match env.jsonUnmarshal body with
      | .error err => ({ info := none, err := some (ascii "failed to parse JSON: " ++ err) }, w)
      | .ok apiResp =>
        if apiResp.Status ≠ ascii "success" then
          ({ info := none, err := some (ascii "API returned error status") }, w)
        else
          let info : IPInfo :=
            { IP := apiResp.Query, City := apiResp.City, Country := apiResp.Country,
              LastUpdated := w.clock }
          let line := ascii "IP fetched: " ++ info.IP ++ ascii " (" ++ info.City ++ ascii ", "
            ++ info.Country ++ ascii ")"
          let w := { w with logs := w.logs ++ [line] }
          let w := w.elapse env.logDur
          ({ info := some info, err := none }, w)

/-- Go handleServerIP: the response written and the state left (none: a run-time
panic on a nil record). -/
def handleServerIP (env : Env) (w : World) : Option (Response × World) :=
  let (res, w) := fetchIPInfo env w
  match res.err with
  | some err => some (httpError err 500, w)
  | none =>
    match res.info with
    | none => none
    | some info =>
      let w := { w with serverIPInfo := { w.serverIPInfo with IP := info.IP } }
      let w := { w with serverIPInfo := { w.serverIPInfo with City := info.City } }
      let w := { w with serverIPInfo := { w.serverIPInfo with Country := info.Country } }
      let w := { w with serverIPInfo := { w.serverIPInfo with LastUpdated := info.LastUpdated } }
      some ({ status := 200, contentType := ascii "application/json",
              body := Body.jsonRecord info.IP info.City info.Country info.LastUpdated }, w)

/-- Go handleIndex, given the outcome of reading the embedded page. -/
def handleIndex (page : Option GoString) : Response :=
  match page with
  | none => httpError (ascii "File not found") 500
  | some data =>
    { status := 200, contentType := ascii "text/html; charset=utf-8", body := Body.raw data }

/-- One request served by the process, with what the outside world does during it. -/
inductive Event where
  | index (page : Option GoString)
  | serverIP (env : Env)
  | clientIP (r : Request)

/-- Serve one request: the routes registered in main. -/
def serve (e : Event) (w : World) : Option (Response × World) :=
  match e with
  | .index page => some (handleIndex page, w)
  | .serverIP env => handleServerIP env w
  | .clientIP r => (handleClientIP r).map (fun resp => (resp, w))

/-- Serve a sequence of requests one after the other; the state left at the end. -/
def run : List Event → World → Option World
  | [], w => some w
  | e :: rest, w =>
    match serve e w with
    | none => none
    | some (_, w2) => run rest w2

/-- No server-ip request of the sequence, served from the state w, has a lookup
that returns a record. -/
def noSuccessfulLookup (events : List Event) (w : World) : Prop :=
  ∀ (pre : List Event) (env : Env) (post : List Event) (w3 : World),
    events = pre ++ Event.serverIP env :: post → run pre w = some w3 →
    (fetchIPInfo env w3).1.info = none

/-- The state of a process that has served no request yet, at clock reading t. -/
def World.init (t : Nat) : World := { clock := t, logs := [], serverIPInfo := IPInfo.zero }

/-- An outside world in which the upstream answers with the given fields. -/
def mkEnv (query city country status : GoString) : Env :=
  { httpGet := none, readAll := .ok (ascii "payload"),
    jsonUnmarshal := fun _ =>
      .ok { Query := query, City := city, Country := country, Status := status },
    getDur := 30, readDur := 2, parseDur := 1, logDur := 1 }

/-- The response of handleServerIP that carries the record r. -/
def recordResponse (r : IPInfo) : Response :=
  { status := 200, contentType := ascii "application/json",
    body := Body.jsonRecord r.IP r.City r.Country r.LastUpdated }

/-- An outside world in which http.Get fails with the given error. -/
def mkEnvDown (e : GoString) : Env :=
  { httpGet := some e, readAll := .ok [], jsonUnmarshal := fun _ => .error [],
    getDur := 30, readDur := 0, parseDur := 0, logDur := 0 }

/-! ## Concurrent calls of handleServerIP -/

/-- Program points of one running call of handleServerIP: before fetchIPInfo,
before Lock, before each of the four assignments, before Unlock, before the
response is encoded, returned, and stopped by a run-time panic. -/
inductive PC where
  | fetch
  | lock
  | setIP
  | setCity
  | setCountry
  | setLastUpdated
  | unlock
  | encode
  | done
  | panicked
  deriving DecidableEq

/-- Position of a program point in the body of handleServerIP. -/
def PC.rank : PC → Nat
  | .fetch => 0
  | .lock => 1
  | .setIP => 2
  | .setCity => 3
  | .setCountry => 4
  | .setLastUpdated => 5
  | .unlock => 6
  | .encode => 7
  | .done => 8
  | .panicked => 9

/-- One goroutine running handleServerIP: its program point, its local variables
info and err, and the response it has written. -/
structure Goroutine where
  pc : PC
  res : FetchResult
  out : Option Response

/-- A goroutine that has just been started on a request. -/
def Goroutine.start : Goroutine :=
  { pc := .fetch, res := { info := none, err := none }, out := none }

/-- State of the process while calls of handleServerIP run concurrently: the shared
state, the goroutine that holds the write lock serverIPInfo.mu (none: the lock is
free) and the goroutines. -/
structure Conc where
  world : World
  mu : Option Nat
  gs : Nat → Goroutine

/-- Replace goroutine i. -/
def Conc.set (s : Conc) (i : Nat) (g : Goroutine) : Nat → Goroutine :=
  fun j => if j = i then g else s.gs j

/-- The process before any of the goroutines has taken a step. -/
def Conc.init (w : World) : Conc :=
  { world := w, mu := none, gs := fun _ => Goroutine.start }

/-- One of the assignments of lines 87-90 by goroutine i: dereference info (a nil
pointer stops the goroutine with a panic), store into serverIPInfo, move on. -/
def assign (s : Conc) (i : Nat) (next : PC) (store : IPInfo → IPInfo → IPInfo) : Conc :=
  match (s.gs i).res.info with
  | none => { s with gs := s.set i { s.gs i with pc := .panicked } }
  | some info =>
    { s with world := { s.world with serverIPInfo := store s.world.serverIPInfo info },
             gs := s.set i { s.gs i with pc := next } }

/-- The next atomic step of goroutine i (none: the goroutine cannot move, because
it waits for the lock or has stopped).  The call of fetchIPInfo and the error
reply are one step: they touch the clock and the log only, never serverIPInfo.
Lock, each of the four assignments, Unlock and the encoding of the response are
steps of their own, so that other goroutines can run between any two of them. -/
def step (envs : Nat → Env) (i : Nat) (s : Conc) : Option Conc :=
  let g := s.gs i
  match g.pc with
  | .fetch =>
    let (res, w) := fetchIPInfo (envs i) s.world
    match res.err with
    | some err =>
      some { s with world := w,
                    gs := s.set i { pc := .done, res := res, out := some (httpError err 500) } }
    | none => some { s with world := w, gs := s.set i { g with pc := .lock, res := res } }
  | .lock =>
    match s.mu with
    | some _ => none
    | none => some { s with mu := some i, gs := s.set i { g with pc := .setIP } }
  | .setIP => some (assign s i .setCity (fun c info => { c with IP := info.IP }))
  | .setCity => some (assign s i .setCountry (fun c info => { c with City := info.City }))
  | .setCountry =>
    some (assign s i .setLastUpdated (fun c info => { c with Country := info.Country }))
  | .setLastUpdated =>
    some (assign s i .unlock (fun c info => { c with LastUpdated := info.LastUpdated }))
  | .unlock =>
    some { s with mu := none, gs := s.set i { g with pc := .encode } }
  | .encode =>
    match g.res.info with
    | none => some { s with gs := s.set i { g with pc := .panicked } }
    | some info =>
      some { s with gs := s.set i { g with pc := .done, out := some (recordResponse info) } }
  | .done => none
  | .panicked => none

/-- Run the goroutines under a schedule: each entry names the goroutine that is
given the next turn; a goroutine that cannot move leaves the state as it is. -/
def exec (envs : Nat → Env) : List Nat → Conc → Conc
  | [], s => s
  | i :: rest, s => exec envs rest ((step envs i s).getD s)

/-- The result res is what fetchIPInfo returned to goroutine i in the run of the
schedule: at some turn of i the goroutine was before its call of fetchIPInfo, and
the call, made in the state reached by then, returned res. -/
def lookupOf (envs : Nat → Env) (s0 : Conc) (sched : List Nat) (i : Nat)
    (res : FetchResult) : Prop :=
  ∃ pre post : List Nat, sched = pre ++ i :: post
    ∧ ((exec envs pre s0).gs i).pc = PC.fetch
    ∧ (fetchIPInfo (envs i) (exec envs pre s0).world).1 = res

/-- No turn of the schedule rest, run after the schedule before, is an Unlock. -/
def noUnlock (envs : Nat → Env) (s0 : Conc) (before rest : List Nat) : Prop :=
  ∀ (pre : List Nat) (k : Nat) (post : List Nat), rest = pre ++ k :: post →
    ((exec envs (before ++ pre) s0).gs k).pc ≠ PC.unlock

/-- Goroutine j made the last Unlock of the run of the schedule: one turn of j is
its Unlock and no later turn of the schedule is an Unlock. -/
def lastUnlockOf (envs : Nat → Env) (s0 : Conc) (sched : List Nat) (j : Nat) : Prop :=
  ∃ pre post : List Nat, sched = pre ++ j :: post
    ∧ ((exec envs pre s0).gs j).pc = PC.unlock
    ∧ noUnlock envs s0 (pre ++ [j]) post

/-- Two upstream answers for two concurrent requests. -/
def twoEnvs (i : Nat) : Env :=
  if i = 0 then mkEnv (ascii "203.0.113.7") (ascii "Paris") (ascii "France") (ascii "success")
  else mkEnv (ascii "198.51.100.9") (ascii "Oslo") (ascii "Norway") (ascii "success")

/-- What holds of every state reached by a schedule from s0. -/
structure Inv (envs : Nat → Env) (s0 : Conc) (sched : List Nat) (s : Conc) : Prop where
  hexec : exec envs sched s0 = s
  hres : ∀ i, (s.gs i).pc ≠ PC.fetch → lookupOf envs s0 sched i (s.gs i).res
  hok : ∀ i, (s.gs i).pc ≠ PC.fetch → (s.gs i).pc ≠ PC.done →
    ∃ r, (s.gs i).res = { info := some r, err := none }
  hdone : ∀ i, (s.gs i).pc = PC.done →
    (∃ m, (s.gs i).res.err = some m ∧ (s.gs i).out = some (httpError m 500))
    ∨ (∃ r, (s.gs i).res = { info := some r, err := none }
        ∧ (s.gs i).out = some (recordResponse r))
  hout : ∀ i, (s.gs i).pc ≠ PC.done → (s.gs i).out = none
  hpanic : ∀ i, (s.gs i).pc ≠ PC.panicked
  hcrit : ∀ i, s.mu = some i ↔ (2 ≤ (s.gs i).pc.rank ∧ (s.gs i).pc.rank ≤ 6)
  hpartial : ∀ i r, s.mu = some i → (s.gs i).res.info = some r →
    (3 ≤ (s.gs i).pc.rank → s.world.serverIPInfo.IP = r.IP)
    ∧ (4 ≤ (s.gs i).pc.rank → s.world.serverIPInfo.City = r.City)
    ∧ (5 ≤ (s.gs i).pc.rank → s.world.serverIPInfo.Country = r.Country)
    ∧ (6 ≤ (s.gs i).pc.rank → s.world.serverIPInfo.LastUpdated = r.LastUpdated)
  hfree : s.mu = none →
    (noUnlock envs s0 [] sched ∧ s.world.serverIPInfo = s0.world.serverIPInfo)
    ∨ ∃ j r, lastUnlockOf envs s0 sched j ∧ (s.gs j).pc ≠ PC.fetch
        ∧ (s.gs j).res = { info := some r, err := none } ∧ s.world.serverIPInfo = r

/-! ## Lemmas on the library functions -/

theorem colon_eq : colon = [58] := by decide

theorem colon_isPrefixOf_cons (c : Nat) (rest : GoString) :
    colon.isPrefixOf (c :: rest) = decide (c = 58) := by
  rw [colon_eq]
  by_cases h : c = 58
  · subst h; simp [List.isPrefixOf]
  · have h2 : ¬ (58 = c) := fun e => h e.symm
    simp [List.isPrefixOf, h, h2]

theorem indexFrom_colon_not_mem (s : GoString) (i : Nat) (h : 58 ∉ s) :
    indexFrom colon s i = -1 := by
  induction s generalizing i with
  | nil => simp [indexFrom, colon_eq]
  | cons c rest ih =>
    have hc : c ≠ 58 := fun e => h (by simp [e])
    have hr : 58 ∉ rest := fun m => h (by simp [m])
    rw [indexFrom, colon_isPrefixOf_cons]
    simp [hc, ih _ hr]

theorem indexFrom_colon_split (pre post : GoString) (i : Nat) (h : 58 ∉ pre) :
    indexFrom colon (pre ++ 58 :: post) i = ((i + pre.length : Nat) : Int) := by
  induction pre generalizing i with
  | nil => rw [List.nil_append, indexFrom, colon_isPrefixOf_cons]; simp
  | cons c rest ih =>
    have hc : c ≠ 58 := fun e => h (by simp [e])
    have hr : 58 ∉ rest := fun m => h (by simp [m])
    rw [List.cons_append, indexFrom, colon_isPrefixOf_cons]
    simp only [hc, decide_False, Bool.false_eq_true, if_false]
    rw [ih _ hr]
    simp only [List.length_cons]
    congr 1
    omega

theorem Index_colon_not_mem (s : GoString) (h : 58 ∉ s) : Index s colon = -1 :=
  indexFrom_colon_not_mem s 0 h

theorem Index_colon_split (pre post : GoString) (h : 58 ∉ pre) :
    Index (pre ++ 58 :: post) colon = (pre.length : Int) := by
  unfold Index
  rw [indexFrom_colon_split pre post 0 h]
  simp

theorem truncateAtColon_not_mem (s : GoString) (h : 58 ∉ s) :
    truncateAtColon s = some s := by
  simp [truncateAtColon, Index_colon_not_mem s h]

theorem truncateAtColon_split (pre post : GoString) (h : 58 ∉ pre) :
    truncateAtColon (pre ++ 58 :: post) = some pre := by
  have hne : ((pre.length : Nat) : Int) ≠ -1 := by omega
  simp only [truncateAtColon, Index_colon_split pre post h, sliceTo]
  rw [if_pos hne, if_pos]
  · simp
  · constructor
    · omega
    · simp only [List.length_append, List.length_cons]
      omega

/-- Every string either has no colon or splits at its first colon. -/
theorem split_at_colon (s : GoString) :
    58 ∉ s ∨ ∃ pre post, s = pre ++ 58 :: post ∧ 58 ∉ pre := by
  induction s with
  | nil => left; simp
  | cons c rest ih =>
    by_cases hc : c = 58
    · right; exact ⟨[], rest, by simp [hc], by simp⟩
    · rcases ih with h | ⟨pre, post, he, hp⟩
      · left
        intro m
        rcases List.mem_cons.1 m with e | m2
        · exact hc e.symm
        · exact h m2
      · right
        refine ⟨c :: pre, post, by simp [he], ?_⟩
        intro m
        rcases List.mem_cons.1 m with e | m2
        · exact hc e.symm
        · exact hp m2

theorem handleClientIP_eq (r : Request) (v : GoString)
    (h : truncateAtColon (selectClientIP r) = some v) :
    handleClientIP r = some (ipResponse v) := by
  simp [handleClientIP, resolveClientIP, h, ipResponse]

theorem selectClientIP_eq (r : Request) :
    selectClientIP r =
      if forwardedFor r ≠ [] then forwardedFor r
      else if realIP r ≠ [] then realIP r else r.RemoteAddr := by
  unfold selectClientIP forwardedFor realIP
  by_cases h1 : r.Header.Get (ascii "X-Forwarded-For") = []
  · by_cases h2 : r.Header.Get (ascii "X-Real-IP") = []
    · simp [h1, h2]
    · simp [h1, h2]
  · simp [h1]

theorem selectClientIP_firstNonEmpty (r : Request) :
    selectClientIP r = (firstNonEmpty [forwardedFor r, realIP r, r.RemoteAddr]).getD [] := by
  rw [selectClientIP_eq]
  by_cases h1 : forwardedFor r = []
  · by_cases h2 : realIP r = []
    · by_cases h3 : r.RemoteAddr = []
      · simp [firstNonEmpty, h1, h2, h3]
      · simp [firstNonEmpty, h1, h2, h3]
    · simp [firstNonEmpty, h1, h2]
  · simp [firstNonEmpty, h1]

/-- The truncation always succeeds, and its result has no colon. -/
theorem truncateAtColon_total (s : GoString) :
    ∃ v, truncateAtColon s = some v ∧ 58 ∉ v ∧ (v = [] ↔ s = [] ∨ ∃ rest, s = 58 :: rest) := by
  rcases split_at_colon s with h | ⟨pre, post, he, hp⟩
  · refine ⟨s, truncateAtColon_not_mem s h, h, ?_⟩
    constructor
    · intro e; left; exact e
    · rintro (e | ⟨rest, e⟩)
      · exact e
      · exact absurd (by simp [e]) h
  · subst he
    refine ⟨pre, truncateAtColon_split pre post hp, hp, ?_⟩
    constructor
    · intro e; right; exact ⟨post, by simp [e]⟩
    · rintro (e | ⟨rest, e⟩)
      · simp at e
      · cases pre with
        | nil => rfl
        | cons c tl =>
          simp only [List.cons_append, List.cons.injEq] at e
          exact absurd (by simp [e.1]) hp

/-! ## Client-IP resolution -/

/-- C1: when the X-Forwarded-For value, the X-Real-IP value and the remote address
contain no colon (byte 58), handleClientIP reports the X-Forwarded-For value if it
is non-empty, otherwise the X-Real-IP value if it is non-empty, otherwise the
remote address.  X-Forwarded-For 1.2.3.4 with X-Real-IP 5.6.7.8 gives 1.2.3.4 and
an empty X-Forwarded-For with X-Real-IP 5.6.7.8 gives 5.6.7.8, for every remote
address. -/
theorem handleClientIP_resolution_order :
    (∀ r : Request, 58 ∉ forwardedFor r → 58 ∉ realIP r → 58 ∉ r.RemoteAddr →
      handleClientIP r = some (ipResponse
        (if forwardedFor r ≠ [] then forwardedFor r
         else if realIP r ≠ [] then realIP r else r.RemoteAddr)))
    ∧ (∀ r : Request, forwardedFor r = ascii "1.2.3.4" → realIP r = ascii "5.6.7.8" →
        handleClientIP r = some (ipResponse (ascii "1.2.3.4")))
    ∧ (∀ r : Request, forwardedFor r = [] → realIP r = ascii "5.6.7.8" →
        handleClientIP r = some (ipResponse (ascii "5.6.7.8"))) := by
  refine ⟨?_, ?_, ?_⟩
  · intro r h1 h2 h3
    apply handleClientIP_eq
    rw [selectClientIP_eq]
    apply truncateAtColon_not_mem
    by_cases e1 : forwardedFor r = []
    · by_cases e2 : realIP r = []
      · simpa [e1, e2] using h3
      · simpa [e1, e2] using h2
    · simpa [e1] using h1
  · intro r h1 h2
    apply handleClientIP_eq
    have e1 : ascii "1.2.3.4" ≠ [] := by decide
    rw [selectClientIP_eq, h1, h2, if_pos e1]
    decide
  · intro r h1 h2
    apply handleClientIP_eq
    have e1 : ¬ (([] : GoString) ≠ []) := by decide
    have e2 : ascii "5.6.7.8" ≠ [] := by decide
    rw [selectClientIP_eq, h1, h2, if_neg e1, if_pos e2]
    decide

/-- C1, instance: X-Forwarded-For 1.2.3.4, X-Real-IP 5.6.7.8, remote address 9.8.7.6. -/
theorem handleClientIP_resolution_order_witness :
    handleClientIP (mkRequest (ascii "1.2.3.4") (ascii "5.6.7.8") (ascii "9.8.7.6"))
      = some (ipResponse (ascii "1.2.3.4")) :=
  handleClientIP_resolution_order.1
    (mkRequest (ascii "1.2.3.4") (ascii "5.6.7.8") (ascii "9.8.7.6"))
    (by decide) (by decide) (by decide)

/-- C2: with both headers empty and a remote address host:port whose host has no
colon, handleClientIP reports exactly host. -/
theorem handleClientIP_remote_fallback (r : Request) (host port : GoString)
    (hx : forwardedFor r = []) (hr : realIP r = [])
    (ha : r.RemoteAddr = host ++ ascii ":" ++ port) (hh : 58 ∉ host) :
    handleClientIP r = some (ipResponse host) := by
  apply handleClientIP_eq
  rw [selectClientIP_eq, hx, hr, ha]
  have e : host ++ ascii ":" ++ port = host ++ 58 :: port := by
    have : ascii ":" = [58] := by decide
    simp [this]
  simp only [ne_eq, not_true_eq_false, if_false, e]
  exact truncateAtColon_split host port hh

/-- C2, instance: remote address 9.8.7.6:54321 gives 9.8.7.6. -/
theorem handleClientIP_remote_fallback_witness :
    handleClientIP (mkRequest [] [] (ascii "9.8.7.6:54321")) = some (ipResponse (ascii "9.8.7.6")) :=
  handleClientIP_remote_fallback (mkRequest [] [] (ascii "9.8.7.6:54321"))
    (ascii "9.8.7.6") (ascii "54321") (by decide) (by decide) (by decide) (by decide)

/-- C3: the value selected by the resolution order (the first non-empty of the
X-Forwarded-For value, the X-Real-IP value and the remote address) is cut at its
first colon: if it is pre, a colon, post with no colon in pre, handleClientIP
reports pre; if it has no colon it is reported unchanged; the reported value never
contains a colon; and the selected value ::1:54321 is reported as the empty string. -/
theorem handleClientIP_colon_truncation (r : Request) :
    selectClientIP r = (firstNonEmpty [forwardedFor r, realIP r, r.RemoteAddr]).getD []
    ∧ (∀ pre post : GoString, selectClientIP r = pre ++ ascii ":" ++ post → 58 ∉ pre →
        handleClientIP r = some (ipResponse pre))
    ∧ (58 ∉ selectClientIP r → handleClientIP r = some (ipResponse (selectClientIP r)))
    ∧ (∃ ip, handleClientIP r = some (ipResponse ip) ∧ 58 ∉ ip)
    ∧ (selectClientIP r = ascii "::1:54321" → handleClientIP r = some (ipResponse [])) := by
  refine ⟨selectClientIP_firstNonEmpty r, ?_, ?_, ?_, ?_⟩
  · intro pre post he hp
    apply handleClientIP_eq
    have e : pre ++ ascii ":" ++ post = pre ++ 58 :: post := by
      have : ascii ":" = [58] := by decide
      simp [this]
    rw [he, e]
    exact truncateAtColon_split pre post hp
  · intro h
    exact handleClientIP_eq r _ (truncateAtColon_not_mem _ h)
  · obtain ⟨v, hv, hc, _⟩ := truncateAtColon_total (selectClientIP r)
    exact ⟨v, handleClientIP_eq r v hv, hc⟩
  · intro h
    apply handleClientIP_eq
    rw [h]
    decide

/-- C3, instances: the header value 1.2.3.4:80 is reported as 1.2.3.4 and the remote
address ::1:54321 as the empty string. -/
theorem handleClientIP_colon_truncation_witness :
    handleClientIP (mkRequest (ascii "1.2.3.4:80") [] (ascii "9.8.7.6:54321"))
        = some (ipResponse (ascii "1.2.3.4"))
    ∧ handleClientIP (mkRequest [] [] (ascii "::1:54321")) = some (ipResponse []) :=
  ⟨(handleClientIP_colon_truncation
      (mkRequest (ascii "1.2.3.4:80") [] (ascii "9.8.7.6:54321"))).2.1
      (ascii "1.2.3.4") (ascii "80") (by decide) (by decide),
   (handleClientIP_colon_truncation (mkRequest [] [] (ascii "::1:54321"))).2.2.2.2 (by decide)⟩

/-- C8: handleClientIP never takes an error path: for every request it writes a
response reporting some string, and when the X-Forwarded-For value, the X-Real-IP
value and the remote address are all empty it reports the empty string. -/
theorem handleClientIP_never_fails (r : Request) :
    (∃ ip, handleClientIP r = some (ipResponse ip))
    ∧ (forwardedFor r = [] → realIP r = [] → r.RemoteAddr = [] →
        handleClientIP r = some (ipResponse [])) := by
  constructor
  · obtain ⟨v, hv, _⟩ := truncateAtColon_total (selectClientIP r)
    exact ⟨v, handleClientIP_eq r v hv⟩
  · intro h1 h2 h3
    apply handleClientIP_eq
    rw [selectClientIP_eq, h1, h2, h3]
    decide

/-- C8, instance: the request with no header and an empty remote address. -/
theorem handleClientIP_never_fails_witness :
    handleClientIP (mkRequest [] [] []) = some (ipResponse []) :=
  (handleClientIP_never_fails (mkRequest [] [] [])).2 (by decide) (by decide) (by decide)

/-- C10: the source is chosen by non-emptiness of the raw value and truncated only
afterwards: a non-empty X-Forwarded-For value that begins with a colon is reported
as the empty string whatever the X-Real-IP value and the remote address are, and
handleClientIP reports the empty string exactly when there is no non-empty source
or the first non-empty source begins with a colon. -/
theorem handleClientIP_precedence_before_truncation (r : Request) :
    (∀ rest : GoString, forwardedFor r = ascii ":" ++ rest →
        handleClientIP r = some (ipResponse []))
    ∧ (handleClientIP r = some (ipResponse []) ↔
        (firstNonEmpty [forwardedFor r, realIP r, r.RemoteAddr] = none
          ∨ ∃ rest : GoString,
              firstNonEmpty [forwardedFor r, realIP r, r.RemoteAddr] = some (ascii ":" ++ rest))) := by
  have hc : ascii ":" = [58] := by decide
  constructor
  · intro rest h
    apply handleClientIP_eq
    have e : selectClientIP r = [] ++ 58 :: rest := by
      rw [selectClientIP_eq, h, hc]; simp
    rw [e]
    exact truncateAtColon_split [] rest (by simp)
  · obtain ⟨v, hv, _, hiff⟩ := truncateAtColon_total (selectClientIP r)
    have hresp : handleClientIP r = some (ipResponse v) := handleClientIP_eq r v hv
    have hv0 : handleClientIP r = some (ipResponse []) ↔ v = [] := by
      rw [hresp]
      constructor
      · intro e
        simp only [ipResponse, Option.some.injEq, Response.mk.injEq, Body.jsonMap.injEq,
          List.cons.injEq, Prod.mk.injEq, and_true, true_and] at e
        exact e
      · intro e; rw [e]
    rw [hv0, hiff, selectClientIP_firstNonEmpty, hc]
    have hne : ∀ l : List GoString, ∀ s, firstNonEmpty l = some s → s ≠ [] := by
      intro l
      induction l with
      | nil => intro s h; simp [firstNonEmpty] at h
      | cons a tl ih =>
        intro s h
        by_cases ha : a = []
        · simp only [firstNonEmpty, ha, if_true] at h
          exact ih s h
        · simp only [firstNonEmpty, ha, if_false, Option.some.injEq] at h
          rw [← h]; exact ha
    cases hf : firstNonEmpty [forwardedFor r, realIP r, r.RemoteAddr] with
    | none => simp
    | some s =>
      have := hne _ s hf
      simp [this]

/-- C10, instance: X-Forwarded-For :8080 with non-empty X-Real-IP and remote address. -/
theorem handleClientIP_precedence_before_truncation_witness :
    handleClientIP (mkRequest (ascii ":8080") (ascii "5.6.7.8") (ascii "9.8.7.6:54321"))
      = some (ipResponse []) :=
  (handleClientIP_precedence_before_truncation
    (mkRequest (ascii ":8080") (ascii "5.6.7.8") (ascii "9.8.7.6:54321"))).1
    (ascii "8080") (by decide)

/-! ## Server-IP lookup -/

theorem fetchIPInfo_cache (env : Env) (w : World) :
    (fetchIPInfo env w).2.serverIPInfo = w.serverIPInfo := by
  unfold fetchIPInfo
  simp only [World.elapse]
  split
  · rfl
  · split
    · rfl
    · split
      · rfl
      · split <;> rfl

theorem fetchIPInfo_indep (env : Env) (w : World) (c : IPInfo) :
    (fetchIPInfo env { w with serverIPInfo := c }).1 = (fetchIPInfo env w).1 := by
  unfold fetchIPInfo
  simp only [World.elapse]
  split
  · rfl
  · split
    · rfl
    · split
      · rfl
      · split <;> rfl

theorem fetchIPInfo_shape (env : Env) (w : World) :
    (∃ m, (fetchIPInfo env w).1 = { info := none, err := some m })
    ∨ (∃ r, (fetchIPInfo env w).1 = { info := some r, err := none }) := by
  unfold fetchIPInfo
  simp only [World.elapse]
  split
  · left; exact ⟨_, rfl⟩
  · split
    · left; exact ⟨_, rfl⟩
    · split
      · left; exact ⟨_, rfl⟩
      · split
        · left; exact ⟨_, rfl⟩
        · right; exact ⟨_, rfl⟩

theorem handleServerIP_of_err (env : Env) (w : World) (m : GoString)
    (h : (fetchIPInfo env w).1.err = some m) :
    handleServerIP env w = some (httpError m 500, (fetchIPInfo env w).2) := by
  unfold handleServerIP
  simp only [h]

theorem handleServerIP_of_ok (env : Env) (w : World) (r : IPInfo)
    (h : (fetchIPInfo env w).1 = { info := some r, err := none }) :
    handleServerIP env w
      = some (recordResponse r, { (fetchIPInfo env w).2 with serverIPInfo := r }) := by
  unfold handleServerIP
  simp only [h, recordResponse]


theorem fetchIPInfo_parsed (env : Env) (w : World) (body : GoString) (resp : IPAPIResponse)
    (hg : env.httpGet = none) (hr : env.readAll = .ok body)
    (hp : env.jsonUnmarshal body = .ok resp) :
    fetchIPInfo env w =
      if resp.Status ≠ ascii "success" then
        ({ info := none, err := some (ascii "API returned error status") },
          ((w.elapse env.getDur).elapse env.readDur).elapse env.parseDur)
      else
        ({ info := some { IP := resp.Query, City := resp.City, Country := resp.Country,
                          LastUpdated := w.clock + env.getDur + env.readDur + env.parseDur },
           err := none },
         { clock := w.clock + env.getDur + env.readDur + env.parseDur + env.logDur,
           logs := w.logs ++ [ascii "IP fetched: " ++ resp.Query ++ ascii " (" ++ resp.City
             ++ ascii ", " ++ resp.Country ++ ascii ")"],
           serverIPInfo := w.serverIPInfo }) := by
  unfold fetchIPInfo
  simp only [hg, hr, hp, World.elapse]

/-- C4: when the upstream response parses to (query, city, country, status) with
status equal to the literal success, fetchIPInfo returns a nil error and a record
whose IP, City and Country are query, city and country and whose LastUpdated is
the clock reading t taken in the call: t is no earlier than the clock at the start
of the call and no later than the clock when the call returns. -/
theorem fetchIPInfo_success_mapping (env : Env) (w : World) (body : GoString)
    (resp : IPAPIResponse)
    (hg : env.httpGet = none) (hr : env.readAll = .ok body)
    (hp : env.jsonUnmarshal body = .ok resp) (hs : resp.Status = ascii "success") :
    ∃ t : Nat,
      (fetchIPInfo env w).1 =
        { info := some { IP := resp.Query, City := resp.City, Country := resp.Country,
                         LastUpdated := t },
          err := none }
      ∧ t = w.clock + env.getDur + env.readDur + env.parseDur
      ∧ w.clock ≤ t ∧ t ≤ (fetchIPInfo env w).2.clock := by
  refine ⟨w.clock + env.getDur + env.readDur + env.parseDur, ?_, rfl, by omega, ?_⟩
  · rw [fetchIPInfo_parsed env w body resp hg hr hp]
    simp [hs]
  · rw [fetchIPInfo_parsed env w body resp hg hr hp]
    simp [hs]

/-- C4, instance: the upstream answers 203.0.113.7, Paris, France, success at clock 1000. -/
theorem fetchIPInfo_success_mapping_witness :
    ∃ t : Nat,
      (fetchIPInfo (mkEnv (ascii "203.0.113.7") (ascii "Paris") (ascii "France")
          (ascii "success")) (World.init 1000)).1 =
        { info := some { IP := ascii "203.0.113.7", City := ascii "Paris",
                         Country := ascii "France", LastUpdated := t },
          err := none }
      ∧ t = 1000 + 30 + 2 + 1
      ∧ 1000 ≤ t
      ∧ t ≤ (fetchIPInfo (mkEnv (ascii "203.0.113.7") (ascii "Paris") (ascii "France")
          (ascii "success")) (World.init 1000)).2.clock :=
  fetchIPInfo_success_mapping
    (mkEnv (ascii "203.0.113.7") (ascii "Paris") (ascii "France") (ascii "success"))
    (World.init 1000) (ascii "payload")
    { Query := ascii "203.0.113.7", City := ascii "Paris", Country := ascii "France",
      Status := ascii "success" }
    rfl rfl rfl rfl

/-- C5: when the parsed upstream response has a status other than the exact string
success, fetchIPInfo returns a nil record and the error API returned error status,
and handleServerIP, run on this lookup, answers and leaves the four fields of
serverIPInfo as they were. -/
theorem fetchIPInfo_upstream_non_success (env : Env) (w : World) (body : GoString)
    (resp : IPAPIResponse)
    (hg : env.httpGet = none) (hr : env.readAll = .ok body)
    (hp : env.jsonUnmarshal body = .ok resp) (hs : resp.Status ≠ ascii "success") :
    (fetchIPInfo env w).1 = { info := none, err := some (ascii "API returned error status") }
    ∧ ∃ (out : Response) (w2 : World), handleServerIP env w = some (out, w2)
        ∧ w2.serverIPInfo.IP = w.serverIPInfo.IP
        ∧ w2.serverIPInfo.City = w.serverIPInfo.City
        ∧ w2.serverIPInfo.Country = w.serverIPInfo.Country
        ∧ w2.serverIPInfo.LastUpdated = w.serverIPInfo.LastUpdated := by
  have h1 : (fetchIPInfo env w).1
      = { info := none, err := some (ascii "API returned error status") } := by
    rw [fetchIPInfo_parsed env w body resp hg hr hp]
    simp [hs]
  refine ⟨h1, _, _, handleServerIP_of_err env w _ (by rw [h1]), ?_⟩
  rw [fetchIPInfo_cache]
  exact ⟨rfl, rfl, rfl, rfl⟩

/-- C5, instances: the statuses Success (other casing) and the empty string. -/
theorem fetchIPInfo_upstream_non_success_witness :
    (fetchIPInfo (mkEnv (ascii "203.0.113.7") (ascii "Paris") (ascii "France")
        (ascii "Success")) (World.init 1000)).1
      = { info := none, err := some (ascii "API returned error status") }
    ∧ (fetchIPInfo (mkEnv (ascii "203.0.113.7") (ascii "Paris") (ascii "France") [])
        (World.init 1000)).1
      = { info := none, err := some (ascii "API returned error status") } :=
  ⟨(fetchIPInfo_upstream_non_success
      (mkEnv (ascii "203.0.113.7") (ascii "Paris") (ascii "France") (ascii "Success"))
      (World.init 1000) (ascii "payload")
      { Query := ascii "203.0.113.7", City := ascii "Paris", Country := ascii "France",
        Status := ascii "Success" }
      rfl rfl rfl (by decide)).1,
   (fetchIPInfo_upstream_non_success
      (mkEnv (ascii "203.0.113.7") (ascii "Paris") (ascii "France") [])
      (World.init 1000) (ascii "payload")
      { Query := ascii "203.0.113.7", City := ascii "Paris", Country := ascii "France",
        Status := [] }
      rfl rfl rfl (by decide)).1⟩


/-- C6: every failed lookup (network, read, parse or upstream status) has an error
message, and whenever fetchIPInfo returns an error with message msg, handleServerIP
answers with status 500 and the plain-text body msg followed by a newline, leaves
serverIPInfo as it was, and answers the same for every prior content of
serverIPInfo. -/
theorem handleServerIP_failure_response (env : Env) (w : World) :
    (∀ msg : GoString, (fetchIPInfo env w).1.err = some msg →
      (∃ w2 : World, handleServerIP env w = some (httpError msg 500, w2)
          ∧ w2.serverIPInfo = w.serverIPInfo)
      ∧ (httpError msg 500).status = 500
      ∧ (httpError msg 500).contentType = ascii "text/plain; charset=utf-8"
      ∧ (httpError msg 500).body = Body.raw (msg ++ ascii "\n")
      ∧ ∀ cache : IPInfo, ∃ w3 : World,
          handleServerIP env { w with serverIPInfo := cache } = some (httpError msg 500, w3)
          ∧ w3.serverIPInfo = cache)
    ∧ (∀ e : GoString, env.httpGet = some e →
        (fetchIPInfo env w).1.err = some (ascii "failed to fetch IP: " ++ e))
    ∧ (∀ e : GoString, env.httpGet = none → env.readAll = .error e →
        (fetchIPInfo env w).1.err = some (ascii "failed to read response: " ++ e))
    ∧ (∀ body e : GoString, env.httpGet = none → env.readAll = .ok body →
        env.jsonUnmarshal body = .error e →
        (fetchIPInfo env w).1.err = some (ascii "failed to parse JSON: " ++ e))
    ∧ (∀ (body : GoString) (resp : IPAPIResponse), env.httpGet = none →
        env.readAll = .ok body → env.jsonUnmarshal body = .ok resp →
        resp.Status ≠ ascii "success" →
        (fetchIPInfo env w).1.err = some (ascii "API returned error status")) := by
  refine ⟨?_, ?_, ?_, ?_, ?_⟩
  · intro msg h
    refine ⟨⟨_, handleServerIP_of_err env w msg h, fetchIPInfo_cache env w⟩, rfl, rfl, rfl, ?_⟩
    intro cache
    have h2 : (fetchIPInfo env { w with serverIPInfo := cache }).1.err = some msg := by
      rw [fetchIPInfo_indep]; exact h
    exact ⟨_, handleServerIP_of_err env _ msg h2, fetchIPInfo_cache env _⟩
  · intro e hg
    unfold fetchIPInfo
    simp only [hg]
  · intro e hg hr
    unfold fetchIPInfo
    simp only [hg, hr]
  · intro body e hg hr hp
    unfold fetchIPInfo
    simp only [hg, hr, hp]
  · intro body resp hg hr hp hs
    rw [fetchIPInfo_parsed env w body resp hg hr hp]
    simp [hs]

/-- C6, instance: a refused connection, with a cache filled by an earlier lookup. -/
theorem handleServerIP_failure_response_witness :
    ∃ w2 : World,
      handleServerIP (mkEnvDown (ascii "connection refused"))
          { clock := 7, logs := [],
            serverIPInfo := { IP := ascii "203.0.113.7", City := ascii "Paris",
                              Country := ascii "France", LastUpdated := 3 } }
        = some (httpError (ascii "failed to fetch IP: connection refused") 500, w2)
      ∧ w2.serverIPInfo = { IP := ascii "203.0.113.7", City := ascii "Paris",
                            Country := ascii "France", LastUpdated := 3 } :=
  ((handleServerIP_failure_response (mkEnvDown (ascii "connection refused"))
      { clock := 7, logs := [],
        serverIPInfo := { IP := ascii "203.0.113.7", City := ascii "Paris",
                          Country := ascii "France", LastUpdated := 3 } }).1
    (ascii "failed to fetch IP: connection refused") (by decide)).1

theorem run_cons (e : Event) (rest : List Event) (w w1 : World) (out : Response)
    (h : serve e w = some (out, w1)) : run (e :: rest) w = run rest w1 := by
  simp [run, h]

theorem serve_shape (e : Event) (w : World) :
    ∃ (out : Response) (w1 : World), serve e w = some (out, w1)
      ∧ ((w1.serverIPInfo = w.serverIPInfo
            ∧ ∀ env, e = Event.serverIP env → (fetchIPInfo env w).1.info = none)
          ∨ ∃ env, e = Event.serverIP env
              ∧ (fetchIPInfo env w).1 = { info := some w1.serverIPInfo, err := none }) := by
  cases e with
  | index page => exact ⟨_, w, rfl, Or.inl ⟨rfl, fun env h => by cases h⟩⟩
  | clientIP r =>
    obtain ⟨v, hv, _⟩ := truncateAtColon_total (selectClientIP r)
    exact ⟨ipResponse v, w, by simp [serve, handleClientIP_eq r v hv],
      Or.inl ⟨rfl, fun env h => by cases h⟩⟩
  | serverIP env =>
    rcases fetchIPInfo_shape env w with ⟨m, hm⟩ | ⟨r, hr⟩
    · refine ⟨_, _, handleServerIP_of_err env w m (by rw [hm]),
        Or.inl ⟨fetchIPInfo_cache env w, ?_⟩⟩
      intro env2 h
      cases h
      rw [hm]
    · exact ⟨_, _, handleServerIP_of_ok env w r hr, Or.inr ⟨env, rfl, hr⟩⟩

theorem run_cache (events : List Event) (w : World) :
    ∃ w2 : World, run events w = some w2
      ∧ ((w2.serverIPInfo = w.serverIPInfo ∧ noSuccessfulLookup events w)
          ∨ ∃ (pre : List Event) (env : Env) (post : List Event) (w1 : World),
              events = pre ++ Event.serverIP env :: post
              ∧ run pre w = some w1
              ∧ (fetchIPInfo env w1).1 = { info := some w2.serverIPInfo, err := none }
              ∧ ∃ (out : Response) (w1b : World),
                  handleServerIP env w1 = some (out, w1b) ∧ noSuccessfulLookup post w1b) := by
  induction events generalizing w with
  | nil =>
    refine ⟨w, rfl, Or.inl ⟨rfl, ?_⟩⟩
    intro pre env post w3 h
    simp at h
  | cons e rest ih =>
    obtain ⟨out, wA, hs, h1⟩ := serve_shape e w
    obtain ⟨w2, hrun, h2⟩ := ih wA
    refine ⟨w2, by rw [run_cons e rest w wA out hs]; exact hrun, ?_⟩
    rcases h2 with ⟨h2, hno⟩ | ⟨pre, env, post, w1, he, hpre, hf, hlast⟩
    · rcases h1 with ⟨h1, hfail⟩ | ⟨env, he, hf⟩
      · left
        refine ⟨by rw [h2, h1], ?_⟩
        intro pre2 env2 post2 w3 hsplit hr
        cases pre2 with
        | nil =>
          simp only [List.nil_append, List.cons.injEq] at hsplit
          simp only [run, Option.some.injEq] at hr
          subst hr
          exact hfail env2 hsplit.1
        | cons a tl =>
          simp only [List.cons_append, List.cons.injEq] at hsplit
          obtain ⟨ha, hrest⟩ := hsplit
          subst ha
          rw [run_cons e tl w wA out hs] at hr
          exact hno tl env2 post2 w3 hrest hr
      · right
        refine ⟨[], env, rest, w, by simp [he], rfl, by rw [h2]; exact hf, out, wA, ?_, hno⟩
        rw [he] at hs
        exact hs
    · right
      refine ⟨e :: pre, env, post, w1, by simp [he], ?_, hf, hlast⟩
      rw [run_cons e pre w wA out hs]
      exact hpre

/-- C7: when the lookup of a handleServerIP call returns the record r, the call
leaves serverIPInfo with IP, City, Country and LastUpdated equal to those of r and
answers with r, whatever serverIPInfo held before.  Hence after any sequence of
requests served from the initial state, serverIPInfo is either the initial empty
record, and then no lookup of the sequence succeeded, or exactly the record that
fetchIPInfo returned in one server-ip request of the sequence, in the state the
process had when that request arrived, and no later lookup of the sequence
succeeded. -/
theorem handleServerIP_wholesale_replacement :
    (∀ (env : Env) (w : World) (r : IPInfo),
      (fetchIPInfo env w).1 = { info := some r, err := none } →
      ∀ cache : IPInfo, ∃ w2 : World,
        handleServerIP env { w with serverIPInfo := cache } = some (recordResponse r, w2)
        ∧ w2.serverIPInfo.IP = r.IP ∧ w2.serverIPInfo.City = r.City
        ∧ w2.serverIPInfo.Country = r.Country
        ∧ w2.serverIPInfo.LastUpdated = r.LastUpdated
        ∧ w2.serverIPInfo = r)
    ∧ (∀ (events : List Event) (t : Nat), ∃ w2 : World,
        run events (World.init t) = some w2
        ∧ ((w2.serverIPInfo = IPInfo.zero ∧ noSuccessfulLookup events (World.init t))
            ∨ ∃ (pre : List Event) (env : Env) (post : List Event) (w1 : World),
                events = pre ++ Event.serverIP env :: post
                ∧ run pre (World.init t) = some w1
                ∧ (fetchIPInfo env w1).1 = { info := some w2.serverIPInfo, err := none }
                ∧ ∃ (out : Response) (w1b : World),
                    handleServerIP env w1 = some (out, w1b)
                    ∧ noSuccessfulLookup post w1b)) := by
  constructor
  · intro env w r h cache
    have h2 : (fetchIPInfo env { w with serverIPInfo := cache }).1
        = { info := some r, err := none } := by
      rw [fetchIPInfo_indep]; exact h
    exact ⟨_, handleServerIP_of_ok env _ r h2, rfl, rfl, rfl, rfl, rfl⟩
  · intro events t
    exact run_cache events (World.init t)

/-- C7, instance: a successful lookup served over a cache that holds another record. -/
theorem handleServerIP_wholesale_replacement_witness :
    ∃ w2 : World,
      handleServerIP (mkEnv (ascii "203.0.113.7") (ascii "Paris") (ascii "France")
          (ascii "success"))
          { World.init 1000 with
            serverIPInfo := { IP := ascii "198.51.100.9", City := ascii "Oslo",
                              Country := ascii "Norway", LastUpdated := 5 } }
        = some (recordResponse { IP := ascii "203.0.113.7", City := ascii "Paris",
                                 Country := ascii "France", LastUpdated := 1033 }, w2)
      ∧ w2.serverIPInfo = { IP := ascii "203.0.113.7", City := ascii "Paris",
                            Country := ascii "France", LastUpdated := 1033 } := by
  obtain ⟨w2, h, _, _, _, _, hc⟩ :=
    handleServerIP_wholesale_replacement.1
      (mkEnv (ascii "203.0.113.7") (ascii "Paris") (ascii "France") (ascii "success"))
      (World.init 1000)
      { IP := ascii "203.0.113.7", City := ascii "Paris", Country := ascii "France",
        LastUpdated := 1033 }
      (by decide)
      { IP := ascii "198.51.100.9", City := ascii "Oslo", Country := ascii "Norway",
        LastUpdated := 5 }
  exact ⟨w2, h, hc⟩

/-! ## Concurrent calls of handleServerIP: the lock protects the record -/

theorem Conc.set_self (s : Conc) (i : Nat) (g : Goroutine) : s.set i g i = g := by
  simp [Conc.set]

theorem Conc.set_ne (s : Conc) (i j : Nat) (g : Goroutine) (h : j ≠ i) :
    s.set i g j = s.gs j := by
  simp [Conc.set, h]

theorem exec_append (envs : Nat → Env) (a b : List Nat) (s : Conc) :
    exec envs (a ++ b) s = exec envs b (exec envs a s) := by
  induction a generalizing s with
  | nil => rfl
  | cons i rest ih => simp only [List.cons_append, exec]; exact ih _

theorem exec_snoc (envs : Nat → Env) (a : List Nat) (i : Nat) (s : Conc) :
    exec envs (a ++ [i]) s = (step envs i (exec envs a s)).getD (exec envs a s) := by
  rw [exec_append]; rfl

theorem lookupOf_snoc (envs : Nat → Env) (s0 : Conc) (sched : List Nat) (i j : Nat)
    (res : FetchResult) (h : lookupOf envs s0 sched j res) :
    lookupOf envs s0 (sched ++ [i]) j res := by
  obtain ⟨pre, post, he, hp, hf⟩ := h
  exact ⟨pre, post ++ [i], by simp [he], hp, hf⟩

theorem snoc_split {α : Type} (post pre2 post2 : List α) (i k : α)
    (h : post ++ [i] = pre2 ++ k :: post2) :
    (post2 = [] ∧ k = i ∧ pre2 = post)
    ∨ ∃ q, post2 = q ++ [i] ∧ post = pre2 ++ k :: q := by
  rcases List.eq_nil_or_concat post2 with e | ⟨q, x, e⟩
  · subst e
    have h2 : post ++ [i] = pre2 ++ [k] := h
    have := List.append_inj' h2 rfl
    left
    exact ⟨rfl, by simpa using this.2.symm, this.1.symm⟩
  · rw [List.concat_eq_append] at e
    subst e
    have h2 : post ++ [i] = (pre2 ++ k :: q) ++ [x] := by simp [h]
    have := List.append_inj' h2 rfl
    right
    refine ⟨q, ?_, this.1⟩
    have hx : i = x := by simpa using this.2
    rw [hx]

theorem noUnlock_snoc (envs : Nat → Env) (s0 : Conc) (before rest : List Nat) (i : Nat)
    (h : noUnlock envs s0 before rest)
    (hi : ((exec envs (before ++ rest) s0).gs i).pc ≠ PC.unlock) :
    noUnlock envs s0 before (rest ++ [i]) := by
  intro pre k post hsplit
  rcases snoc_split rest pre post i k hsplit with ⟨_, hk, hp⟩ | ⟨q, _, hq⟩
  · subst hk; subst hp; exact hi
  · exact h pre k q hq

theorem lastUnlockOf_snoc (envs : Nat → Env) (s0 : Conc) (sched : List Nat) (i j : Nat)
    (h : lastUnlockOf envs s0 sched j)
    (hi : ((exec envs sched s0).gs i).pc ≠ PC.unlock) :
    lastUnlockOf envs s0 (sched ++ [i]) j := by
  obtain ⟨pre, post, he, hp, hno⟩ := h
  refine ⟨pre, post ++ [i], by simp [he], hp, ?_⟩
  apply noUnlock_snoc envs s0 (pre ++ [j]) post i hno
  have : pre ++ [j] ++ post = sched := by simp [he]
  rw [this]
  exact hi

theorem inv_init (envs : Nat → Env) (w : World) :
    Inv envs (Conc.init w) [] (Conc.init w) where
  hexec := rfl
  hres := fun i h => absurd rfl h
  hok := fun i h => absurd rfl h
  hdone := fun i h => by simp [Conc.init, Goroutine.start] at h
  hout := fun i _ => rfl
  hpanic := fun i => by simp [Conc.init, Goroutine.start]
  hcrit := fun i => by simp [Conc.init, Goroutine.start, PC.rank]
  hpartial := fun i r h => by simp [Conc.init] at h
  hfree := fun _ => Or.inl ⟨fun pre k post h => by simp at h, rfl⟩

theorem inv_stutter (envs : Nat → Env) (s0 s : Conc) (sched : List Nat) (i : Nat)
    (h : Inv envs s0 sched s) (hs : step envs i s = none) :
    Inv envs s0 (sched ++ [i]) s where
  hexec := by rw [exec_snoc, h.hexec, hs]; rfl
  hres := fun j hj => lookupOf_snoc envs s0 sched i j _ (h.hres j hj)
  hok := h.hok
  hdone := h.hdone
  hout := h.hout
  hpanic := h.hpanic
  hcrit := h.hcrit
  hpartial := h.hpartial
  hfree := fun hf => by
    have hno : ((exec envs sched s0).gs i).pc ≠ PC.unlock := by
      rw [h.hexec]
      intro e
      simp [step, e] at hs
    rcases h.hfree hf with ⟨h1, h2⟩ | ⟨j, r, h1, h2, h3, h4⟩
    · exact Or.inl ⟨noUnlock_snoc envs s0 [] sched i h1 hno, h2⟩
    · exact Or.inr ⟨j, r, lastUnlockOf_snoc envs s0 sched i j h1 hno, h2, h3, h4⟩

theorem inv_fetch (envs : Nat → Env) (s0 s : Conc) (sched : List Nat) (i : Nat)
    (h : Inv envs s0 sched s) (hpc : (s.gs i).pc = PC.fetch) :
    ∃ s2, step envs i s = some s2 ∧ Inv envs s0 (sched ++ [i]) s2 := by
  have hlook : lookupOf envs s0 (sched ++ [i]) i (fetchIPInfo (envs i) s.world).1 :=
    ⟨sched, [], rfl, by rw [h.hexec]; exact hpc, by rw [h.hexec]⟩
  have hmu : s.mu ≠ some i := by
    intro e
    have := (h.hcrit i).1 e
    rw [hpc] at this
    simp [PC.rank] at this
  have hnu : ((exec envs ([] ++ sched) s0).gs i).pc ≠ PC.unlock := by
    rw [List.nil_append, h.hexec, hpc]; decide
  rcases fetchIPInfo_shape (envs i) s.world with ⟨m, hm⟩ | ⟨r, hr⟩
  · refine ⟨{ s with world := (fetchIPInfo (envs i) s.world).2,
                     gs := s.set i { pc := .done, res := (fetchIPInfo (envs i) s.world).1,
                                     out := some (httpError m 500) } }, ?_, ?_⟩
    · simp only [step, hpc, hm]
    · constructor
      · rw [exec_snoc, h.hexec]; simp only [step, hpc, hm]; rfl
      · intro j hj
        by_cases e : j = i
        · subst e; simp only [Conc.set_self]; exact hlook
        · simp only [Conc.set_ne _ _ _ _ e] at hj ⊢
          exact lookupOf_snoc envs s0 sched i j _ (h.hres j hj)
      · intro j hj hd
        by_cases e : j = i
        · subst e; simp only [Conc.set_self] at hd; exact absurd rfl hd
        · simp only [Conc.set_ne _ _ _ _ e] at hj hd ⊢
          exact h.hok j hj hd
      · intro j hj
        by_cases e : j = i
        · subst e; simp only [Conc.set_self]
          left; exact ⟨m, by rw [hm], rfl⟩
        · simp only [Conc.set_ne _ _ _ _ e] at hj ⊢
          exact h.hdone j hj
      · intro j hj
        by_cases e : j = i
        · subst e; simp only [Conc.set_self] at hj; exact absurd rfl hj
        · simp only [Conc.set_ne _ _ _ _ e] at hj ⊢
          exact h.hout j hj
      · intro j
        by_cases e : j = i
        · subst e; simp only [Conc.set_self]; decide
        · simp only [Conc.set_ne _ _ _ _ e]
          exact h.hpanic j
      · intro j
        by_cases e : j = i
        · subst e; simp only [Conc.set_self]
          constructor
          · intro e2; exact absurd e2 hmu
          · intro e2; simp [PC.rank] at e2
        · simp only [Conc.set_ne _ _ _ _ e]
          exact h.hcrit j
      · intro j r hj hr
        by_cases e : j = i
        · subst e; exact absurd hj hmu
        · simp only [Conc.set_ne _ _ _ _ e, fetchIPInfo_cache] at hr ⊢
          exact h.hpartial j r hj hr
      · intro hf
        rcases h.hfree hf with ⟨h1, h2⟩ | ⟨j, r, h1, h2, h3, h4⟩
        · left
          exact ⟨noUnlock_snoc envs s0 [] sched i h1 hnu,
            by simp only [fetchIPInfo_cache]; exact h2⟩
        · right
          have e : j ≠ i := fun e => h2 (by rw [e]; exact hpc)
          refine ⟨j, r, lastUnlockOf_snoc envs s0 sched i j h1 hnu, ?_, ?_, ?_⟩
          · simp only [Conc.set_ne _ _ _ _ e]; exact h2
          · simp only [Conc.set_ne _ _ _ _ e]; exact h3
          · simp only [fetchIPInfo_cache]; exact h4
  · have herr : (fetchIPInfo (envs i) s.world).1.err = none := by rw [hr]
    refine ⟨{ s with world := (fetchIPInfo (envs i) s.world).2,
                     gs := s.set i { pc := .lock, res := (fetchIPInfo (envs i) s.world).1,
                                     out := (s.gs i).out } }, ?_, ?_⟩
    · simp only [step, hpc, herr]
    · constructor
      · rw [exec_snoc, h.hexec]; simp only [step, hpc, herr]; rfl
      · intro j hj
        by_cases e : j = i
        · subst e; simp only [Conc.set_self]; exact hlook
        · simp only [Conc.set_ne _ _ _ _ e] at hj ⊢
          exact lookupOf_snoc envs s0 sched i j _ (h.hres j hj)
      · intro j hj hd
        by_cases e : j = i
        · subst e; simp only [Conc.set_self]; exact ⟨r, hr⟩
        · simp only [Conc.set_ne _ _ _ _ e] at hj hd ⊢
          exact h.hok j hj hd
      · intro j hj
        by_cases e : j = i
        · subst e; simp only [Conc.set_self] at hj; cases hj
        · simp only [Conc.set_ne _ _ _ _ e] at hj ⊢
          exact h.hdone j hj
      · intro j hj
        by_cases e : j = i
        · subst e; simp only [Conc.set_self]
          exact h.hout j (by rw [hpc]; decide)
        · simp only [Conc.set_ne _ _ _ _ e] at hj ⊢
          exact h.hout j hj
      · intro j
        by_cases e : j = i
        · subst e; simp only [Conc.set_self]; decide
        · simp only [Conc.set_ne _ _ _ _ e]
          exact h.hpanic j
      · intro j
        by_cases e : j = i
        · subst e; simp only [Conc.set_self]
          constructor
          · intro e2; exact absurd e2 hmu
          · intro e2; simp [PC.rank] at e2
        · simp only [Conc.set_ne _ _ _ _ e]
          exact h.hcrit j
      · intro j r2 hj hr2
        by_cases e : j = i
        · subst e; exact absurd hj hmu
        · simp only [Conc.set_ne _ _ _ _ e, fetchIPInfo_cache] at hr2 ⊢
          exact h.hpartial j r2 hj hr2
      · intro hf
        rcases h.hfree hf with ⟨h1, h2⟩ | ⟨j, r2, h1, h2, h3, h4⟩
        · left
          exact ⟨noUnlock_snoc envs s0 [] sched i h1 hnu,
            by simp only [fetchIPInfo_cache]; exact h2⟩
        · right
          have e : j ≠ i := fun e => h2 (by rw [e]; exact hpc)
          refine ⟨j, r2, lastUnlockOf_snoc envs s0 sched i j h1 hnu, ?_, ?_, ?_⟩
          · simp only [Conc.set_ne _ _ _ _ e]; exact h2
          · simp only [Conc.set_ne _ _ _ _ e]; exact h3
          · simp only [fetchIPInfo_cache]; exact h4

theorem inv_lock (envs : Nat → Env) (s0 s : Conc) (sched : List Nat) (i : Nat)
    (h : Inv envs s0 sched s) (hpc : (s.gs i).pc = PC.lock) (hmu : s.mu = none) :
    ∃ s2, step envs i s = some s2 ∧ Inv envs s0 (sched ++ [i]) s2 := by
  have hst : step envs i s
      = some { s with mu := some i, gs := s.set i { s.gs i with pc := .setIP } } := by
    simp only [step, hpc, hmu]
  refine ⟨_, hst, ?_⟩
  constructor
  · rw [exec_snoc, h.hexec, hst]; rfl
  · intro j hj
    by_cases e : j = i
    · subst e; simp only [Conc.set_self]
      exact lookupOf_snoc envs s0 sched j j _ (h.hres j (by rw [hpc]; decide))
    · simp only [Conc.set_ne _ _ _ _ e] at hj ⊢
      exact lookupOf_snoc envs s0 sched i j _ (h.hres j hj)
  · intro j hj hd
    by_cases e : j = i
    · subst e; simp only [Conc.set_self]
      exact h.hok j (by rw [hpc]; decide) (by rw [hpc]; decide)
    · simp only [Conc.set_ne _ _ _ _ e] at hj hd ⊢
      exact h.hok j hj hd
  · intro j hj
    by_cases e : j = i
    · subst e; simp only [Conc.set_self] at hj; cases hj
    · simp only [Conc.set_ne _ _ _ _ e] at hj ⊢
      exact h.hdone j hj
  · intro j hj
    by_cases e : j = i
    · subst e; simp only [Conc.set_self]
      exact h.hout j (by rw [hpc]; decide)
    · simp only [Conc.set_ne _ _ _ _ e] at hj ⊢
      exact h.hout j hj
  · intro j
    by_cases e : j = i
    · subst e; simp only [Conc.set_self]; decide
    · simp only [Conc.set_ne _ _ _ _ e]
      exact h.hpanic j
  · intro j
    by_cases e : j = i
    · subst e; simp only [Conc.set_self]
      simp [PC.rank]
    · simp only [Conc.set_ne _ _ _ _ e]
      constructor
      · intro e2
        simp only [Option.some.injEq] at e2
        exact absurd e2.symm e
      · intro e2
        have := (h.hcrit j).2 e2
        rw [hmu] at this
        cases this
  · intro j r hj hr
    simp only [Option.some.injEq] at hj
    subst hj
    simp only [Conc.set_self]
    simp [PC.rank]
  · intro hf
    cases hf


theorem assign_ok (s : Conc) (i : Nat) (next : PC) (store : IPInfo → IPInfo → IPInfo)
    (r : IPInfo) (hr : (s.gs i).res.info = some r) :
    assign s i next store
      = { s with world := { s.world with serverIPInfo := store s.world.serverIPInfo r },
                 gs := s.set i { pc := next, res := (s.gs i).res, out := (s.gs i).out } } := by
  simp only [assign, hr]

theorem inv_assign (envs : Nat → Env) (s0 s : Conc) (sched : List Nat) (i : Nat)
    (next : PC) (store : IPInfo → IPInfo → IPInfo)
    (h : Inv envs s0 sched s)
    (hlo : 2 ≤ (s.gs i).pc.rank) (hhi : (s.gs i).pc.rank ≤ 5)
    (hnext : next.rank = (s.gs i).pc.rank + 1)
    (hstore : ∀ c r : IPInfo,
      ((3 ≤ (s.gs i).pc.rank → c.IP = r.IP)
        ∧ (4 ≤ (s.gs i).pc.rank → c.City = r.City)
        ∧ (5 ≤ (s.gs i).pc.rank → c.Country = r.Country)
        ∧ (6 ≤ (s.gs i).pc.rank → c.LastUpdated = r.LastUpdated)) →
      ((3 ≤ next.rank → (store c r).IP = r.IP)
        ∧ (4 ≤ next.rank → (store c r).City = r.City)
        ∧ (5 ≤ next.rank → (store c r).Country = r.Country)
        ∧ (6 ≤ next.rank → (store c r).LastUpdated = r.LastUpdated)))
    (hstep : step envs i s = some (assign s i next store)) :
    ∃ s2, step envs i s = some s2 ∧ Inv envs s0 (sched ++ [i]) s2 := by
  have hnf : (s.gs i).pc ≠ PC.fetch := by
    intro e; rw [e] at hlo; simp [PC.rank] at hlo
  have hnd : (s.gs i).pc ≠ PC.done := by
    intro e; rw [e] at hhi; simp [PC.rank] at hhi
  have hmu : s.mu = some i := (h.hcrit i).2 ⟨hlo, by omega⟩
  obtain ⟨r, hr⟩ := h.hok i hnf hnd
  have hri : (s.gs i).res.info = some r := by rw [hr]
  have hnextf : next ≠ PC.fetch := by
    intro e; rw [e] at hnext; simp [PC.rank] at hnext
  have hnextd : next ≠ PC.done := by
    intro e; have h8 : next.rank = 8 := by rw [e]; rfl
    omega
  have hnextp : next ≠ PC.panicked := by
    intro e; have h9 : next.rank = 9 := by rw [e]; rfl
    omega
  refine ⟨_, hstep, ?_⟩
  rw [assign_ok s i next store r hri]
  constructor
  · rw [exec_snoc, h.hexec, hstep, assign_ok s i next store r hri]; rfl
  · intro j hj
    by_cases e : j = i
    · subst e; simp only [Conc.set_self]
      exact lookupOf_snoc envs s0 sched j j _ (h.hres j hnf)
    · simp only [Conc.set_ne _ _ _ _ e] at hj ⊢
      exact lookupOf_snoc envs s0 sched i j _ (h.hres j hj)
  · intro j hj hd
    by_cases e : j = i
    · subst e; simp only [Conc.set_self]; exact ⟨r, hr⟩
    · simp only [Conc.set_ne _ _ _ _ e] at hj hd ⊢
      exact h.hok j hj hd
  · intro j hj
    by_cases e : j = i
    · subst e; simp only [Conc.set_self] at hj; exact absurd hj hnextd
    · simp only [Conc.set_ne _ _ _ _ e] at hj ⊢
      exact h.hdone j hj
  · intro j hj
    by_cases e : j = i
    · subst e; simp only [Conc.set_self]
      exact h.hout j hnd
    · simp only [Conc.set_ne _ _ _ _ e] at hj ⊢
      exact h.hout j hj
  · intro j
    by_cases e : j = i
    · subst e; simp only [Conc.set_self]; exact hnextp
    · simp only [Conc.set_ne _ _ _ _ e]
      exact h.hpanic j
  · intro j
    by_cases e : j = i
    · subst e; simp only [Conc.set_self]
      constructor
      · intro _; omega
      · intro _; exact hmu
    · simp only [Conc.set_ne _ _ _ _ e]
      exact h.hcrit j
  · intro j r2 hj hr2
    have e : j = i := by
      have : s.mu = some j := hj
      rw [hmu] at this
      simp only [Option.some.injEq] at this
      exact this.symm
    subst e
    simp only [Conc.set_self] at hr2 ⊢
    have e2 : r2 = r := by
      rw [hri] at hr2
      simp only [Option.some.injEq] at hr2
      exact hr2.symm
    subst e2
    exact hstore s.world.serverIPInfo r2 (h.hpartial j r2 hmu hri)
  · intro hf
    have : s.mu = none := hf
    rw [hmu] at this
    cases this

theorem inv_unlock (envs : Nat → Env) (s0 s : Conc) (sched : List Nat) (i : Nat)
    (h : Inv envs s0 sched s) (hpc : (s.gs i).pc = PC.unlock) :
    ∃ s2, step envs i s = some s2 ∧ Inv envs s0 (sched ++ [i]) s2 := by
  have hst : step envs i s
      = some { s with mu := none,
                      gs := s.set i { pc := .encode, res := (s.gs i).res,
                                      out := (s.gs i).out } } := by
    simp only [step, hpc]
  have hnf : (s.gs i).pc ≠ PC.fetch := by rw [hpc]; decide
  have hnd : (s.gs i).pc ≠ PC.done := by rw [hpc]; decide
  have hmu : s.mu = some i := (h.hcrit i).2 (by rw [hpc]; simp [PC.rank])
  obtain ⟨r, hr⟩ := h.hok i hnf hnd
  have hri : (s.gs i).res.info = some r := by rw [hr]
  refine ⟨_, hst, ?_⟩
  constructor
  · rw [exec_snoc, h.hexec, hst]; rfl
  · intro j hj
    by_cases e : j = i
    · subst e; simp only [Conc.set_self]
      exact lookupOf_snoc envs s0 sched j j _ (h.hres j hnf)
    · simp only [Conc.set_ne _ _ _ _ e] at hj ⊢
      exact lookupOf_snoc envs s0 sched i j _ (h.hres j hj)
  · intro j hj hd
    by_cases e : j = i
    · subst e; simp only [Conc.set_self]; exact ⟨r, hr⟩
    · simp only [Conc.set_ne _ _ _ _ e] at hj hd ⊢
      exact h.hok j hj hd
  · intro j hj
    by_cases e : j = i
    · subst e; simp only [Conc.set_self] at hj; cases hj
    · simp only [Conc.set_ne _ _ _ _ e] at hj ⊢
      exact h.hdone j hj
  · intro j hj
    by_cases e : j = i
    · subst e; simp only [Conc.set_self]
      exact h.hout j hnd
    · simp only [Conc.set_ne _ _ _ _ e] at hj ⊢
      exact h.hout j hj
  · intro j
    by_cases e : j = i
    · subst e; simp only [Conc.set_self]; decide
    · simp only [Conc.set_ne _ _ _ _ e]
      exact h.hpanic j
  · intro j
    by_cases e : j = i
    · subst e; simp only [Conc.set_self]
      simp [PC.rank]
    · simp only [Conc.set_ne _ _ _ _ e]
      constructor
      · intro e2; cases e2
      · intro e2
        have := (h.hcrit j).2 e2
        rw [hmu] at this
        simp only [Option.some.injEq] at this
        exact absurd this.symm e
  · intro j r2 hj
    cases hj
  · intro _
    right
    have hlast : lastUnlockOf envs s0 (sched ++ [i]) i :=
      ⟨sched, [], rfl, by rw [h.hexec]; exact hpc, fun pre k post hsp => by simp at hsp⟩
    refine ⟨i, r, hlast, ?_, ?_, ?_⟩
    · simp only [Conc.set_self]; decide
    · simp only [Conc.set_self]; exact hr
    · obtain ⟨h1, h2, h3, h4⟩ := h.hpartial i r hmu hri
      rw [hpc] at h1 h2 h3 h4
      have e1 := h1 (by simp [PC.rank])
      have e2 := h2 (by simp [PC.rank])
      have e3 := h3 (by simp [PC.rank])
      have e4 := h4 (by simp [PC.rank])
      show s.world.serverIPInfo = r
      cases hc : s.world.serverIPInfo with
      | mk a b c d =>
        rw [hc] at e1 e2 e3 e4
        cases r with
        | mk a2 b2 c2 d2 =>
          simp only at e1 e2 e3 e4
          rw [e1, e2, e3, e4]

theorem inv_encode (envs : Nat → Env) (s0 s : Conc) (sched : List Nat) (i : Nat)
    (h : Inv envs s0 sched s) (hpc : (s.gs i).pc = PC.encode) :
    ∃ s2, step envs i s = some s2 ∧ Inv envs s0 (sched ++ [i]) s2 := by
  have hnf : (s.gs i).pc ≠ PC.fetch := by rw [hpc]; decide
  have hnd : (s.gs i).pc ≠ PC.done := by rw [hpc]; decide
  obtain ⟨r, hr⟩ := h.hok i hnf hnd
  have hri : (s.gs i).res.info = some r := by rw [hr]
  have hmu : s.mu ≠ some i := by
    intro e
    have := (h.hcrit i).1 e
    rw [hpc] at this
    simp [PC.rank] at this
  have hst : step envs i s
      = some { s with gs := s.set i { pc := .done, res := (s.gs i).res,
                                      out := some (recordResponse r) } } := by
    simp only [step, hpc, hri]
  refine ⟨_, hst, ?_⟩
  constructor
  · rw [exec_snoc, h.hexec, hst]; rfl
  · intro j hj
    by_cases e : j = i
    · subst e; simp only [Conc.set_self]
      exact lookupOf_snoc envs s0 sched j j _ (h.hres j hnf)
    · simp only [Conc.set_ne _ _ _ _ e] at hj ⊢
      exact lookupOf_snoc envs s0 sched i j _ (h.hres j hj)
  · intro j hj hd
    by_cases e : j = i
    · subst e; simp only [Conc.set_self]; exact ⟨r, hr⟩
    · simp only [Conc.set_ne _ _ _ _ e] at hj hd ⊢
      exact h.hok j hj hd
  · intro j hj
    by_cases e : j = i
    · subst e; simp only [Conc.set_self]
      right; exact ⟨r, hr, rfl⟩
    · simp only [Conc.set_ne _ _ _ _ e] at hj ⊢
      exact h.hdone j hj
  · intro j hj
    by_cases e : j = i
    · subst e; simp only [Conc.set_self] at hj; exact absurd rfl hj
    · simp only [Conc.set_ne _ _ _ _ e] at hj ⊢
      exact h.hout j hj
  · intro j
    by_cases e : j = i
    · subst e; simp only [Conc.set_self]; decide
    · simp only [Conc.set_ne _ _ _ _ e]
      exact h.hpanic j
  · intro j
    by_cases e : j = i
    · subst e; simp only [Conc.set_self]
      constructor
      · intro e2; exact absurd e2 hmu
      · intro e2; simp [PC.rank] at e2
    · simp only [Conc.set_ne _ _ _ _ e]
      exact h.hcrit j
  · intro j r2 hj hr2
    by_cases e : j = i
    · subst e; exact absurd hj hmu
    · simp only [Conc.set_ne _ _ _ _ e] at hr2 ⊢
      exact h.hpartial j r2 hj hr2
  · intro hf
    have hnu : ((exec envs ([] ++ sched) s0).gs i).pc ≠ PC.unlock := by
      rw [List.nil_append, h.hexec, hpc]; decide
    rcases h.hfree hf with ⟨h1, h2⟩ | ⟨j, r2, h1, h2, h3, h4⟩
    · left; exact ⟨noUnlock_snoc envs s0 [] sched i h1 hnu, h2⟩
    · right
      refine ⟨j, r2, lastUnlockOf_snoc envs s0 sched i j h1 hnu, ?_, ?_, h4⟩
      · by_cases e : j = i
        · subst e; simp only [Conc.set_self]; decide
        · simp only [Conc.set_ne _ _ _ _ e]; exact h2
      · by_cases e : j = i
        · subst e; simp only [Conc.set_self]; exact h3
        · simp only [Conc.set_ne _ _ _ _ e]; exact h3


theorem inv_step (envs : Nat → Env) (s0 s : Conc) (sched : List Nat) (i : Nat)
    (h : Inv envs s0 sched s) :
    Inv envs s0 (sched ++ [i]) ((step envs i s).getD s) := by
  have stutter : step envs i s = none → Inv envs s0 (sched ++ [i]) ((step envs i s).getD s) := by
    intro hs
    rw [hs]
    exact inv_stutter envs s0 s sched i h hs
  have moved : (∃ s2, step envs i s = some s2 ∧ Inv envs s0 (sched ++ [i]) s2) →
      Inv envs s0 (sched ++ [i]) ((step envs i s).getD s) := by
    rintro ⟨s2, hs, hi⟩
    rw [hs]
    exact hi
  cases hpc : (s.gs i).pc with
  | fetch => exact moved (inv_fetch envs s0 s sched i h hpc)
  | lock =>
    cases hmu : s.mu with
    | none => exact moved (inv_lock envs s0 s sched i h hpc hmu)
    | some k => exact stutter (by simp only [step, hpc, hmu])
  | setIP =>
    apply moved
    apply inv_assign envs s0 s sched i PC.setCity (fun c info => { c with IP := info.IP }) h
    · rw [hpc]; decide
    · rw [hpc]; decide
    · rw [hpc]; rfl
    · rw [hpc]
      rintro c r ⟨_, _, _, _⟩
      exact ⟨fun _ => rfl, fun hx => absurd hx (by decide), fun hx => absurd hx (by decide),
        fun hx => absurd hx (by decide)⟩
    · simp only [step, hpc]
  | setCity =>
    apply moved
    apply inv_assign envs s0 s sched i PC.setCountry
      (fun c info => { c with City := info.City }) h
    · rw [hpc]; decide
    · rw [hpc]; decide
    · rw [hpc]; rfl
    · rw [hpc]
      rintro c r ⟨h1, _, _, _⟩
      exact ⟨fun _ => h1 (by decide), fun _ => rfl, fun hx => absurd hx (by decide),
        fun hx => absurd hx (by decide)⟩
    · simp only [step, hpc]
  | setCountry =>
    apply moved
    apply inv_assign envs s0 s sched i PC.setLastUpdated
      (fun c info => { c with Country := info.Country }) h
    · rw [hpc]; decide
    · rw [hpc]; decide
    · rw [hpc]; rfl
    · rw [hpc]
      rintro c r ⟨h1, h2, _, _⟩
      exact ⟨fun _ => h1 (by decide), fun _ => h2 (by decide), fun _ => rfl,
        fun hx => absurd hx (by decide)⟩
    · simp only [step, hpc]
  | setLastUpdated =>
    apply moved
    apply inv_assign envs s0 s sched i PC.unlock
      (fun c info => { c with LastUpdated := info.LastUpdated }) h
    · rw [hpc]; decide
    · rw [hpc]; decide
    · rw [hpc]; rfl
    · rw [hpc]
      rintro c r ⟨h1, h2, h3, _⟩
      exact ⟨fun _ => h1 (by decide), fun _ => h2 (by decide), fun _ => h3 (by decide),
        fun _ => rfl⟩
    · simp only [step, hpc]
  | unlock => exact moved (inv_unlock envs s0 s sched i h hpc)
  | encode => exact moved (inv_encode envs s0 s sched i h hpc)
  | done => exact stutter (by simp only [step, hpc])
  | panicked => exact stutter (by simp only [step, hpc])

theorem inv_exec (envs : Nat → Env) (w : World) (sched : List Nat) :
    Inv envs (Conc.init w) sched (exec envs sched (Conc.init w)) := by
  induction sched using List.reverseRecOn with
  | nil => exact inv_init envs w
  | append_singleton l i ih =>
    rw [exec_snoc]
    exact inv_step envs (Conc.init w) _ l i ih


theorem step_other (envs : Nat → Env) (i j : Nat) (s s2 : Conc)
    (h : step envs i s = some s2) (hj : j ≠ i) : s2.gs j = s.gs j := by
  unfold step at h
  simp only at h
  split at h
  · split at h
    · cases h; exact Conc.set_ne _ _ _ _ hj
    · cases h; exact Conc.set_ne _ _ _ _ hj
  · split at h
    · cases h
    · cases h; exact Conc.set_ne _ _ _ _ hj
  all_goals first
    | (cases h; unfold assign; split <;> exact Conc.set_ne _ _ _ _ hj)
    | (cases h; exact Conc.set_ne _ _ _ _ hj)
    | (split at h <;> (cases h; exact Conc.set_ne _ _ _ _ hj))
    | cases h

theorem step_rank (envs : Nat → Env) (i : Nat) (s s2 : Conc)
    (h : step envs i s = some s2) : (s.gs i).pc.rank < (s2.gs i).pc.rank := by
  unfold step at h
  simp only at h
  split at h
  · rename_i hpc
    split at h
    · cases h; rw [hpc]; simp [Conc.set_self, PC.rank]
    · cases h; rw [hpc]; simp [Conc.set_self, PC.rank]
  · rename_i hpc
    split at h
    · cases h
    · cases h; rw [hpc]; simp [Conc.set_self, PC.rank]
  all_goals first
    | (rename_i hpc; cases h; rw [hpc]; unfold assign; split <;> simp [Conc.set_self, PC.rank])
    | (rename_i hpc; cases h; rw [hpc]; simp [Conc.set_self, PC.rank])
    | (rename_i hpc; split at h <;> (cases h; rw [hpc]; simp [Conc.set_self, PC.rank]))
    | cases h

theorem step_enabled (envs : Nat → Env) (i : Nat) (s : Conc)
    (hr : (s.gs i).pc.rank < 8) (hl : (s.gs i).pc = PC.lock → s.mu = none) :
    ∃ s2, step envs i s = some s2 := by
  unfold step
  simp only
  cases hpc : (s.gs i).pc with
  | fetch => simp only; split <;> exact ⟨_, rfl⟩
  | lock => simp only [hl hpc]; exact ⟨_, rfl⟩
  | setIP => exact ⟨_, rfl⟩
  | setCity => exact ⟨_, rfl⟩
  | setCountry => exact ⟨_, rfl⟩
  | setLastUpdated => exact ⟨_, rfl⟩
  | unlock => exact ⟨_, rfl⟩
  | encode => simp only; split <;> exact ⟨_, rfl⟩
  | done => rw [hpc] at hr; simp [PC.rank] at hr
  | panicked => rw [hpc] at hr; simp [PC.rank] at hr

theorem step_mu (envs : Nat → Env) (i : Nat) (s s2 : Conc)
    (h : step envs i s = some s2) (hlo : 2 ≤ (s.gs i).pc.rank) (hhi : (s.gs i).pc.rank ≤ 6) :
    s2.mu = if (s.gs i).pc = PC.unlock then none else s.mu := by
  unfold step at h
  simp only at h
  cases hpc : (s.gs i).pc with
  | fetch => rw [hpc] at hlo; simp [PC.rank] at hlo
  | lock => rw [hpc] at hlo; simp [PC.rank] at hlo
  | setIP => rw [hpc] at h; cases h; unfold assign; split <;> simp
  | setCity => rw [hpc] at h; cases h; unfold assign; split <;> simp
  | setCountry => rw [hpc] at h; cases h; unfold assign; split <;> simp
  | setLastUpdated => rw [hpc] at h; cases h; unfold assign; split <;> simp
  | unlock => rw [hpc] at h; cases h; simp
  | encode => rw [hpc] at hhi; simp [PC.rank] at hhi
  | done => rw [hpc] at hhi; simp [PC.rank] at hhi
  | panicked => rw [hpc] at hhi; simp [PC.rank] at hhi


theorem rank_eq_unlock (p : PC) (h : p.rank = 6) : p = PC.unlock := by
  cases p <;> simp [PC.rank] at h ⊢

theorem rank_lt_eight (p : PC) (hd : p ≠ PC.done) (hp : p ≠ PC.panicked) : p.rank < 8 := by
  cases p <;> simp [PC.rank] at hd hp ⊢

theorem release (envs : Nat → Env) (w : World) (k : Nat) (n : Nat) :
    ∀ sched : List Nat, (exec envs sched (Conc.init w)).mu = some k →
      6 - ((exec envs sched (Conc.init w)).gs k).pc.rank ≤ n →
      ∃ ext : List Nat, (exec envs (sched ++ ext) (Conc.init w)).mu = none
        ∧ ∀ j, j ≠ k → (exec envs (sched ++ ext) (Conc.init w)).gs j
            = (exec envs sched (Conc.init w)).gs j := by
  induction n with
  | zero =>
    intro sched hmu hn
    have hinv := inv_exec envs w sched
    have hc := (hinv.hcrit k).1 hmu
    have hu : ((exec envs sched (Conc.init w)).gs k).pc = PC.unlock :=
      rank_eq_unlock _ (by omega)
    obtain ⟨s2, hs⟩ := step_enabled envs k (exec envs sched (Conc.init w)) (by omega)
      (fun e => by rw [e] at hu; cases hu)
    have he : exec envs (sched ++ [k]) (Conc.init w) = s2 := by rw [exec_snoc, hs]; rfl
    refine ⟨[k], ?_, ?_⟩
    · rw [he, step_mu envs k _ s2 hs hc.1 hc.2, if_pos hu]
    · intro j hj
      rw [he]
      exact step_other envs k j _ s2 hs hj
  | succ n ih =>
    intro sched hmu hn
    have hinv := inv_exec envs w sched
    have hc := (hinv.hcrit k).1 hmu
    obtain ⟨s2, hs⟩ := step_enabled envs k (exec envs sched (Conc.init w)) (by omega)
      (fun e => by rw [e] at hc; simp [PC.rank] at hc)
    have he : exec envs (sched ++ [k]) (Conc.init w) = s2 := by rw [exec_snoc, hs]; rfl
    by_cases hu : ((exec envs sched (Conc.init w)).gs k).pc = PC.unlock
    · refine ⟨[k], ?_, ?_⟩
      · rw [he, step_mu envs k _ s2 hs hc.1 hc.2, if_pos hu]
      · intro j hj
        rw [he]
        exact step_other envs k j _ s2 hs hj
    · have hmu2 : (exec envs (sched ++ [k]) (Conc.init w)).mu = some k := by
        rw [he, step_mu envs k _ s2 hs hc.1 hc.2, if_neg hu]
        exact hmu
      have hrk := step_rank envs k _ s2 hs
      have hn2 : 6 - ((exec envs (sched ++ [k]) (Conc.init w)).gs k).pc.rank ≤ n := by
        rw [he]; omega
      obtain ⟨ext, h1, h2⟩ := ih (sched ++ [k]) hmu2 hn2
      refine ⟨k :: ext, ?_, ?_⟩
      · have : sched ++ k :: ext = sched ++ [k] ++ ext := by simp
        rw [this]; exact h1
      · intro j hj
        have : sched ++ k :: ext = sched ++ [k] ++ ext := by simp
        rw [this, h2 j hj, he]
        exact step_other envs k j _ s2 hs hj

theorem unblock (envs : Nat → Env) (w : World) (i : Nat) (sched : List Nat) :
    ∃ ext : List Nat,
      (exec envs (sched ++ ext) (Conc.init w)).gs i = (exec envs sched (Conc.init w)).gs i
      ∧ (((exec envs sched (Conc.init w)).gs i).pc = PC.lock →
          (exec envs (sched ++ ext) (Conc.init w)).mu = none) := by
  cases hmu : (exec envs sched (Conc.init w)).mu with
  | none => exact ⟨[], by simp, fun _ => by simpa using hmu⟩
  | some k =>
    by_cases hl : ((exec envs sched (Conc.init w)).gs i).pc = PC.lock
    · have hinv := inv_exec envs w sched
      have hc := (hinv.hcrit k).1 hmu
      have hik : i ≠ k := by
        intro e
        rw [e] at hl
        rw [hl] at hc
        simp [PC.rank] at hc
      obtain ⟨ext, h1, h2⟩ := release envs w k _ sched hmu (le_refl _)
      exact ⟨ext, h2 i hik, fun _ => h1⟩
    · exact ⟨[], by simp, fun e => absurd e hl⟩

theorem finish (envs : Nat → Env) (w : World) (i : Nat) (n : Nat) :
    ∀ sched : List Nat, 8 - ((exec envs sched (Conc.init w)).gs i).pc.rank ≤ n →
      ∃ ext : List Nat, ((exec envs (sched ++ ext) (Conc.init w)).gs i).pc = PC.done := by
  induction n with
  | zero =>
    intro sched hn
    by_cases hd : ((exec envs sched (Conc.init w)).gs i).pc = PC.done
    · exact ⟨[], by simpa using hd⟩
    · have := rank_lt_eight _ hd ((inv_exec envs w sched).hpanic i)
      omega
  | succ n ih =>
    intro sched hn
    by_cases hd : ((exec envs sched (Conc.init w)).gs i).pc = PC.done
    · exact ⟨[], by simpa using hd⟩
    · have hlt := rank_lt_eight _ hd ((inv_exec envs w sched).hpanic i)
      obtain ⟨ext1, hg, hfree⟩ := unblock envs w i sched
      obtain ⟨s2, hs⟩ := step_enabled envs i (exec envs (sched ++ ext1) (Conc.init w))
        (by rw [hg]; exact hlt) (fun e => hfree (by rw [hg] at e; exact e))
      have he : exec envs (sched ++ ext1 ++ [i]) (Conc.init w) = s2 := by
        rw [exec_snoc, hs]; rfl
      have hrk := step_rank envs i _ s2 hs
      rw [hg] at hrk
      obtain ⟨ext2, h2⟩ := ih (sched ++ ext1 ++ [i]) (by rw [he]; omega)
      refine ⟨ext1 ++ [i] ++ ext2, ?_⟩
      have : sched ++ (ext1 ++ [i] ++ ext2) = sched ++ ext1 ++ [i] ++ ext2 := by simp
      rw [this]
      exact h2

/-- C9: for any number of concurrent calls of handleServerIP and every schedule of
their atomic steps: a response that has been written is the error reply or the
record of the lookup made by that same call; the lock is held exactly by a
goroutine between Lock and Unlock, so at most one; whenever the lock is free (the
states in which a reader holding the read lock can look at the cache) the cache is
the initial empty record, no Unlock having happened, or has all four fields of the
record looked up by the goroutine whose Unlock came last; no goroutine panics; and
every call can be run to its response. -/
theorem concurrent_handleServerIP_no_torn_record (envs : Nat → Env) (t : Nat)
    (sched : List Nat) :
    (∀ (i : Nat) (resp : Response),
      ((exec envs sched (Conc.init (World.init t))).gs i).out = some resp →
      ∃ res : FetchResult, lookupOf envs (Conc.init (World.init t)) sched i res
        ∧ ((∃ m, res.err = some m ∧ resp = httpError m 500)
            ∨ ∃ r, res = { info := some r, err := none } ∧ resp = recordResponse r))
    ∧ (∀ i : Nat, (exec envs sched (Conc.init (World.init t))).mu = some i ↔
        (2 ≤ ((exec envs sched (Conc.init (World.init t))).gs i).pc.rank
          ∧ ((exec envs sched (Conc.init (World.init t))).gs i).pc.rank ≤ 6))
    ∧ ((exec envs sched (Conc.init (World.init t))).mu = none →
        (noUnlock envs (Conc.init (World.init t)) [] sched
          ∧ (exec envs sched (Conc.init (World.init t))).world.serverIPInfo = IPInfo.zero)
        ∨ ∃ (j : Nat) (r : IPInfo),
            lastUnlockOf envs (Conc.init (World.init t)) sched j
            ∧ lookupOf envs (Conc.init (World.init t)) sched j { info := some r, err := none }
            ∧ (exec envs sched (Conc.init (World.init t))).world.serverIPInfo.IP = r.IP
            ∧ (exec envs sched (Conc.init (World.init t))).world.serverIPInfo.City = r.City
            ∧ (exec envs sched (Conc.init (World.init t))).world.serverIPInfo.Country
                = r.Country
            ∧ (exec envs sched (Conc.init (World.init t))).world.serverIPInfo.LastUpdated
                = r.LastUpdated)
    ∧ (∀ i : Nat, ((exec envs sched (Conc.init (World.init t))).gs i).pc ≠ PC.panicked)
    ∧ (∀ i : Nat, ∃ (ext : List Nat) (resp : Response),
        ((exec envs (sched ++ ext) (Conc.init (World.init t))).gs i).out = some resp) := by
  have hinv := inv_exec envs (World.init t) sched
  refine ⟨?_, hinv.hcrit, ?_, hinv.hpanic, ?_⟩
  · intro i resp hout
    have hd : ((exec envs sched (Conc.init (World.init t))).gs i).pc = PC.done := by
      by_contra hnd
      rw [hinv.hout i hnd] at hout
      cases hout
    have hnf : ((exec envs sched (Conc.init (World.init t))).gs i).pc ≠ PC.fetch := by
      rw [hd]; decide
    refine ⟨_, hinv.hres i hnf, ?_⟩
    rcases hinv.hdone i hd with ⟨m, h1, h2⟩ | ⟨r, h1, h2⟩
    · left
      rw [h2] at hout
      exact ⟨m, h1, by simpa using hout.symm⟩
    · right
      rw [h2] at hout
      exact ⟨r, h1, by simpa using hout.symm⟩
  · intro hf
    rcases hinv.hfree hf with ⟨h1, h2⟩ | ⟨j, r, h1, h2, h3, h4⟩
    · exact Or.inl ⟨h1, h2⟩
    · right
      refine ⟨j, r, h1, ?_, ?_⟩
      · rw [← h3]; exact hinv.hres j h2
      · rw [h4]; exact ⟨rfl, rfl, rfl, rfl⟩
  · intro i
    obtain ⟨ext, hd⟩ := finish envs (World.init t) i _ sched (le_refl _)
    have hinv2 := inv_exec envs (World.init t) (sched ++ ext)
    rcases hinv2.hdone i hd with ⟨m, _, h2⟩ | ⟨r, _, h2⟩
    · exact ⟨ext, _, h2⟩
    · exact ⟨ext, _, h2⟩

/-- C9, instance: two requests whose steps interleave; the second goroutine waits
for the lock while the first one writes. -/
theorem concurrent_handleServerIP_no_torn_record_witness :
    ((exec twoEnvs [0, 1, 0, 1, 0, 1, 0, 0, 0, 0, 1, 1, 1, 1, 1, 1, 0, 1]
        (Conc.init (World.init 1000))).mu = none
      ∧ (exec twoEnvs [0, 1, 0, 1, 0, 1, 0, 0, 0, 0, 1, 1, 1, 1, 1, 1, 0, 1]
          (Conc.init (World.init 1000))).world.serverIPInfo
        = { IP := ascii "198.51.100.9", City := ascii "Oslo", Country := ascii "Norway",
            LastUpdated := 1067 })
    ∧ ∃ res : FetchResult,
        lookupOf twoEnvs (Conc.init (World.init 1000))
          [0, 1, 0, 1, 0, 1, 0, 0, 0, 0, 1, 1, 1, 1, 1, 1, 0, 1] 0 res
        ∧ ((∃ m, res.err = some m
              ∧ recordResponse { IP := ascii "203.0.113.7", City := ascii "Paris",
                                 Country := ascii "France", LastUpdated := 1033 }
                = httpError m 500)
            ∨ ∃ r, res = { info := some r, err := none }
              ∧ recordResponse { IP := ascii "203.0.113.7", City := ascii "Paris",
                                 Country := ascii "France", LastUpdated := 1033 }
                = recordResponse r) :=
  ⟨⟨by decide, by decide⟩,
   (concurrent_handleServerIP_no_torn_record twoEnvs 1000
      [0, 1, 0, 1, 0, 1, 0, 0, 0, 0, 1, 1, 1, 1, 1, 1, 0, 1]).1 0
      (recordResponse { IP := ascii "203.0.113.7", City := ascii "Paris",
                        Country := ascii "France", LastUpdated := 1033 })
      (by decide)⟩

end DualIP
